import Mathlib

/-!
Verification of the `cmd-gen` command generator against its specification.

This file shallowly embeds the core of the Python sources
(`cmd_gen/security.py`, `cmd_gen/utils.py`, `cmd_gen/llm_client.py`,
`cmd_gen/command_generator.py`, `cmd_gen/cli.py`) as executable Lean
definitions and proves or refutes the frozen claims about them.

Conventions of the embedding:
* Python strings are modelled as Lean `String` / `List Char`; case folding
  (`str.lower`, `re.IGNORECASE`) is modelled with Lean's ASCII `Char.toLower`,
  which agrees with Python on all ASCII text.
* The regular expressions used by the source are small and fall into a common
  shape; they are embedded as sequences of `Atom`s with a verified backtracking
  matcher (`matchA` / `searchA`) mirroring `re.search` semantics, including
  the fact that `.` does not match a newline while `\s` does.
* Word characters for the `\b` boundary are ASCII alphanumerics and `_`,
  matching Python's `\w` on ASCII text.
-/

namespace CmdGen

/-- The ASCII upper-to-lower case table. -/
def ucPairs : List (Char × Char) :=
  [('A', 'a'), ('B', 'b'), ('C', 'c'), ('D', 'd'), ('E', 'e'), ('F', 'f'),
   ('G', 'g'), ('H', 'h'), ('I', 'i'), ('J', 'j'), ('K', 'k'), ('L', 'l'),
   ('M', 'm'), ('N', 'n'), ('O', 'o'), ('P', 'p'), ('Q', 'q'), ('R', 'r'),
   ('S', 's'), ('T', 't'), ('U', 'u'), ('V', 'v'), ('W', 'w'), ('X', 'x'),
   ('Y', 'y'), ('Z', 'z')]

/-- ASCII case folding of one character: `str.lower` restricted to ASCII
(written as an explicit table so that proofs can reason by cases). -/
def pyLowerChar (c : Char) : Char :=
  match ucPairs.find? (fun p => p.1 = c) with
  | some p => p.2
  | none => c

/-- Model of `str.lower` on a whole string (ASCII case folding). -/
def pyLower (s : String) : String := ⟨s.data.map pyLowerChar⟩

/-- ASCII whitespace characters recognised by Python's `\s` class and
`str.strip`. -/
def wsChars : List Char := [' ', '\t', '\n', '\r', '\x0b', '\x0c']

/-- Character class `\w` (ASCII): letters, digits and underscore. -/
def wordChar (c : Char) : Bool := c.isAlphanum || c = '_'

/-- One element of an embedded regular expression.  Each regex appearing in
the source is a concatenation of these atoms. -/
inductive Atom where
  /-- a literal character sequence -/
  | lit : List Char → Atom
  /-- a literal word surrounded by `\b` boundaries on both sides -/
  | wlit : List Char → Atom
  /-- Pattern `.` : any single character except a newline -/
  | dot : Atom
  /-- a single character drawn from an explicit class -/
  | cls : List Char → Atom
  /-- Pattern `.*` : any run of non-newline characters -/
  | gapAny : Atom
  /-- Pattern `\s*` : any run of whitespace characters (newlines included) -/
  | gapWs : Atom
  deriving DecidableEq, Repr

/-- Last character of `w` if `w` is nonempty, otherwise the previous
character `prev`; used to thread the character preceding the match point
through the matcher for `\b` boundary checks. -/
def prevAfter (prev : Option Char) (w : List Char) : Option Char :=
  match w.getLast? with
  | some c => some c
  | none => prev

/-- Greedy-with-backtracking scan for a starred character class: succeed if
`step` succeeds after skipping any (possibly empty) run of characters
accepted by `skip`.  `step` receives the character preceding its start
position and the remaining text. -/
def gapScan (step : Option Char → List Char → Bool) (skip : Char → Bool) :
    Option Char → List Char → Bool
  | prev, [] => step prev []
  | prev, c :: rest =>
      step prev (c :: rest) || (skip c && gapScan step skip (some c) rest)

/-- Backtracking matcher: does the atom sequence `ats` match a prefix of `l`,
where `prev` is the character immediately before `l` in the subject (none at
the start of the subject)?  Mirrors the semantics of the corresponding Python
regexes anchored at the current position. -/
def matchA : List Atom → Option Char → List Char → Bool
  | [], _, _ => true
  | (Atom.lit w) :: ats, prev, l =>
      w.isPrefixOf l && matchA ats (prevAfter prev w) (l.drop w.length)
  | (Atom.wlit w) :: ats, prev, l =>
      (match prev with | none => true | some c => !wordChar c) &&
      w.isPrefixOf l &&
      (match (l.drop w.length).head? with | none => true | some c => !wordChar c) &&
      matchA ats (prevAfter prev w) (l.drop w.length)
  | Atom.dot :: ats, _, l =>
      match l with
      | [] => false
      | c :: rest => decide (c ≠ '\n') && matchA ats (some c) rest
  | (Atom.cls cs) :: ats, _, l =>
      match l with
      | [] => false
      | c :: rest => cs.contains c && matchA ats (some c) rest
  | Atom.gapAny :: ats, prev, l =>
      gapScan (matchA ats) (fun c => decide (c ≠ '\n')) prev l
  | Atom.gapWs :: ats, prev, l =>
      gapScan (matchA ats) (fun c => wsChars.contains c) prev l

/-- Unanchored search: does `ats` match starting at some position of `l`?
`prev` is the character before `l` (none at the start of the subject).
Mirrors `re.search`. -/
def searchA (ats : List Atom) : Option Char → List Char → Bool
  | prev, [] => matchA ats prev []
  | prev, c :: rest => matchA ats prev (c :: rest) || searchA ats (some c) rest

/-- Model of `re.search(pattern, s, re.IGNORECASE)` for an embedded pattern whose
literals are all lower case: search the lower-cased subject. -/
def regexSearch (ats : List Atom) (s : String) : Bool :=
  searchA ats none (pyLower s).data

/-- Python's substring test `sub in s`, on character lists. -/
def listInfix (sub : List Char) : List Char → Bool
  | [] => sub.isPrefixOf []
  | c :: rest => sub.isPrefixOf (c :: rest) || listInfix sub rest

/-! ### `cmd_gen/config.py` : the denylist -/

/-- The list `BLOCKED_KEYWORDS` from `cmd_gen/config.py`, verbatim (note that
`"chmod -R 777"` contains an upper-case `R`). -/
def BLOCKED_KEYWORDS : List String :=
  ["rm -rf", ":()\x7b :|:& \x7d;:", "mkfs", "dd if=/dev/zero",
   "chmod -R 777", "wget", "curl", "> /dev/sda",
   "sudo", "su -", "passwd", "/etc/shadow", "/etc/passwd",
   "format", "del /f", "deltree", "rd /s", "iptables"]

/-! ### `cmd_gen/security.py` -/

/-- The `injection_patterns` table of `validate_input`, each regex embedded
as an atom sequence (in source order). -/
def injection_patterns : List (List Atom) :=
  [ [Atom.lit ['$', '('], Atom.gapWs, Atom.gapAny, Atom.gapWs, Atom.lit [')']],
    [Atom.lit ['\x60'], Atom.gapAny, Atom.lit ['\x60']],
    [Atom.lit "eval".data, Atom.gapWs, Atom.lit ['(']],
    [Atom.lit "system".data, Atom.gapWs, Atom.lit ['(']],
    [Atom.lit "exec".data, Atom.gapWs, Atom.lit ['(']],
    [Atom.lit [';'], Atom.gapWs, Atom.lit "rm".data, Atom.cls wsChars],
    [Atom.lit [';'], Atom.gapWs, Atom.lit "dd".data, Atom.cls wsChars],
    [Atom.lit ['-', '-', 'h', 'e', 'l', 'p']],
    [Atom.lit ['-', '-'], Atom.dot, Atom.gapAny],
    [Atom.lit ['\x27', '-', '-']],
    [Atom.lit "<script>".data] ]

/-- Model of `validate_input` from `cmd_gen/security.py`: false iff some injection
pattern matches (case-insensitively); the source returns on the first match
but the boolean outcome is the same. -/
def validate_input (text : String) : Bool :=
  !(injection_patterns.any (fun p => regexSearch p text))

/-- Regex `\brm\b.*-[rf]` from `is_safe_command`. -/
def rmPattern : List Atom :=
  [Atom.wlit "rm".data, Atom.gapAny, Atom.lit ['-'], Atom.cls ['r', 'f']]

/-- Regex `\bformat\b` from `is_safe_command`. -/
def formatPattern : List Atom := [Atom.wlit "format".data]

/-- Regex `\bchmod\b.*777` from `is_safe_command`. -/
def chmodPattern : List Atom :=
  [Atom.wlit "chmod".data, Atom.gapAny, Atom.lit "777".data]

/-- The `dangerous_patterns` table of `is_safe_command`, in source order,
paired with the rejection reasons. -/
def dangerous_patterns : List (List Atom × String) :=
  [ (rmPattern, "Command may delete files/directories"),
    (formatPattern, "Command may format storage device"),
    (chmodPattern, "Command sets dangerous file permissions"),
    ([Atom.wlit "sudo".data], "Command requires elevated privileges"),
    ([Atom.wlit "nc".data, Atom.gapAny, Atom.lit ['-', 'e']],
     "Command may open network backdoor"),
    ([Atom.wlit "telnet".data], "Command uses insecure protocol"),
    ([Atom.lit ['>'], Atom.gapWs, Atom.lit "/dev/".data],
     "Command writes directly to device files"),
    ([Atom.lit ['>', '>'], Atom.gapWs, Atom.lit "/etc/".data],
     "Command modifies system configuration files"),
    ([Atom.wlit "fdisk".data], "Command may modify disk partitions"),
    ([Atom.wlit "mkfs".data], "Command may format filesystem"),
    ([Atom.lit [':', '(', ')', '\x7b']], "Command appears to be a fork bomb"),
    ([Atom.lit "while".data, Atom.gapWs, Atom.lit "true".data],
     "Command contains infinite loop") ]

/-- Model of `is_safe_command` from `cmd_gen/security.py`: first check the denylist
(plain substring of the lower-cased command), then the dangerous-pattern
table; first hit wins. -/
def is_safe_command (command : String) : Bool × String :=
  match BLOCKED_KEYWORDS.find? (fun k => listInfix k.data (pyLower command).data) with
  | some k => (false, "Command contains blocked keyword: " ++ k)
  | none =>
    match dangerous_patterns.find? (fun p => regexSearch p.1 command) with
    | some p => (false, p.2)
    | none => (true, "")

/-- The advisory `data_risk_patterns` table of `audit_command`, in source
order, paired with the warning texts. -/
def data_risk_patterns : List (List Atom × String) :=
  [ ([Atom.wlit "grep".data, Atom.gapAny, Atom.lit ['-', 'r']],
     "Command searches recursively - verify scope"),
    ([Atom.wlit "find".data, Atom.gapAny, Atom.lit "-delete".data],
     "Command will delete files - verify scope"),
    ([Atom.wlit "sed".data, Atom.gapAny, Atom.lit ['-', 'i']],
     "Command modifies files in-place - verify files"),
    ([Atom.wlit "chown".data], "Command changes file ownership - verify impact") ]

/-- Model of `audit_command` from `cmd_gen/security.py`: returns
`(is_safe, reason_if_unsafe or command_if_safe)`.  The `description`
argument is accepted but never used by the source.  The advisory second
pass only prints warnings (see `audit_warnings`) and never changes the
returned pair. -/
def audit_command (command description : String) : Bool × String :=
  let r := is_safe_command command
  if r.1 then (true, command) else (false, r.2)

/-- The warnings printed by `audit_command`'s advisory second pass (every
matching `data_risk_patterns` entry, in order); emitted only when the first
pass accepted the command. -/
def audit_warnings (command : String) : List String :=
  (data_risk_patterns.filter (fun p => regexSearch p.1 command)).map (fun p => p.2)

/-! ### JSON values and `json.loads` (`import json` as used by the source)

The source relies on Python's `json` module.  `JVal` models a parsed JSON
value: numbers keep their decimal mantissa/exponent (mirroring Python's
`int` vs `float` distinction for JSON source text), and objects are
insertion-ordered key/value lists with Python-`dict` overwrite semantics
for duplicate keys.  The parser below models `json.loads` with its default
settings (strict strings, `NaN`/`Infinity` constants accepted).  Lone
surrogate `\uXXXX` escapes, which Lean's `Char` cannot carry, are rejected;
they cannot occur in the texts this program parses. -/

inductive JVal where
  | jnull
  | jbool (b : Bool)
  | jnum (m : Int) (e : Int)
  | jnan
  | jinf (neg : Bool)
  | jstr (s : List Char)
  | jarr (xs : List JVal)
  | jobj (kvs : List (List Char × JVal))
  deriving Repr

/-- JSON whitespace accepted between tokens by `json.loads`. -/
def jws (c : Char) : Bool := c = ' ' || c = '\t' || c = '\n' || c = '\r'

/-- Skip JSON whitespace. -/
def skipWs (l : List Char) : List Char := l.dropWhile jws

/-- Value of one hexadecimal digit. -/
def hexVal (c : Char) : Option Nat :=
  if '0' ≤ c ∧ c ≤ '9' then some (c.toNat - 48)
  else if 'a' ≤ c ∧ c ≤ 'f' then some (c.toNat - 87)
  else if 'A' ≤ c ∧ c ≤ 'F' then some (c.toNat - 55)
  else none

/-- Parse the body of a JSON string after the opening quote, returning the
decoded content and the rest of the input after the closing quote.  Strict
mode: raw control characters are rejected. -/
def parseJString : List Char → Option (List Char × List Char)
  | [] => none
  | c :: rest =>
    if c = '"' then some ([], rest)
    else if c = '\\' then
      match rest with
      | [] => none
      | e :: rest2 =>
        if e = 'u' then
          match rest2 with
          | h1 :: h2 :: h3 :: h4 :: rest3 =>
            match hexVal h1, hexVal h2, hexVal h3, hexVal h4 with
            | some a, some b, some c3, some d =>
              let n := ((a * 16 + b) * 16 + c3) * 16 + d
              if 0xd800 ≤ n ∧ n < 0xe000 then none
              else
                match parseJString rest3 with
                | some (s, r) => some (Char.ofNat n :: s, r)
                | none => none
            | _, _, _, _ => none
          | _ => none
        else
          let esc : Option Char :=
            if e = '"' then some '"' else if e = '\\' then some '\\'
            else if e = '/' then some '/' else if e = 'b' then some '\x08'
            else if e = 'f' then some '\x0c' else if e = 'n' then some '\n'
            else if e = 'r' then some '\r' else if e = 't' then some '\t'
            else none
          match esc with
          | some ch =>
              match parseJString rest2 with
              | some (s, r) => some (ch :: s, r)
              | none => none
          | none => none
    else if c.toNat < 0x20 then none
    else
      match parseJString rest with
      | some (s, r) => some (c :: s, r)
      | none => none

/-- Numeric value of a list of decimal digits. -/
def digitsVal (ds : List Char) : Nat := ds.foldl (fun acc c => acc * 10 + (c.toNat - 48)) 0

/-- Parse a JSON number (`-?int frac? exp?`, no leading zeros), returning
its mantissa/exponent and the remaining input. -/
def parseJNumber (l : List Char) : Option (JVal × List Char) :=
  let (neg, l1) : Bool × List Char :=
    match l with
    | '-' :: t => (true, t)
    | _ => (false, l)
  let ds := l1.takeWhile Char.isDigit
  let r1 := l1.dropWhile Char.isDigit
  if ds = [] then none
  else if ds.head? = some '0' ∧ ds.length > 1 then none
  else
    let (fs, r2) : List Char × List Char :=
      match r1 with
      | '.' :: t => (t.takeWhile Char.isDigit, t.dropWhile Char.isDigit)
      | _ => ([], r1)
    let fracFailed : Bool := match r1 with
      | '.' :: _ => fs.isEmpty
      | _ => false
    if fracFailed then none
    else
      let hasExp := match r2 with
        | 'e' :: _ => true
        | 'E' :: _ => true
        | _ => false
      if hasExp then
        let t := r2.tail
        let (esign, t2) : Bool × List Char :=
          match t with
          | '-' :: tt => (true, tt)
          | '+' :: tt => (false, tt)
          | _ => (false, t)
        let es := t2.takeWhile Char.isDigit
        let r3 := t2.dropWhile Char.isDigit
        if es = [] then none
        else
          let mag : Int := Int.ofNat (digitsVal (ds ++ fs))
          let m : Int := if neg then -mag else mag
          let ex : Int := (if esign then -(Int.ofNat (digitsVal es)) else Int.ofNat (digitsVal es)) -
            Int.ofNat fs.length
          some (JVal.jnum m ex, r3)
      else
        let mag : Int := Int.ofNat (digitsVal (ds ++ fs))
        let m : Int := if neg then -mag else mag
        some (JVal.jnum m (-(Int.ofNat fs.length)), r2)

/-- Insert a key/value pair with Python-`dict` semantics: an existing key
keeps its position but takes the new value, a new key is appended. -/
def insertKey (kvs : List (List Char × JVal)) (k : List Char) (v : JVal) :
    List (List Char × JVal) :=
  match kvs with
  | [] => [(k, v)]
  | (k', v') :: rest => if k' = k then (k', v) :: rest else (k', v') :: insertKey rest k v

mutual

/-- Parse one JSON value (fuel-indexed so that the definition is structural
and kernel-evaluable; `jsonLoads` supplies ample fuel). -/
def parseJVal : Nat → List Char → Option (JVal × List Char)
  | 0, _ => none
  | _ + 1, [] => none
  | fuel + 1, c :: rest =>
    if c = '"' then
      match parseJString rest with
      | some (s, r) => some (JVal.jstr s, r)
      | none => none
    else if c = '\x7b' then
      match skipWs rest with
      | '\x7d' :: r => some (JVal.jobj [], r)
      | t => match parseJMembers fuel t with
             | some (kvs, r) => some (JVal.jobj (kvs.foldl (fun a kv => insertKey a kv.1 kv.2) []), r)
             | none => none
    else if c = '[' then
      match skipWs rest with
      | ']' :: r => some (JVal.jarr [], r)
      | t => match parseJItems fuel t with
             | some (xs, r) => some (JVal.jarr xs, r)
             | none => none
    else if c = 't' then
      if "rue".data.isPrefixOf rest then some (JVal.jbool true, rest.drop 3) else none
    else if c = 'f' then
      if "alse".data.isPrefixOf rest then some (JVal.jbool false, rest.drop 4) else none
    else if c = 'n' then
      if "ull".data.isPrefixOf rest then some (JVal.jnull, rest.drop 3) else none
    else if c = 'N' then
      if "aN".data.isPrefixOf rest then some (JVal.jnan, rest.drop 2) else none
    else if c = 'I' then
      if "nfinity".data.isPrefixOf rest then some (JVal.jinf false, rest.drop 7) else none
    else if c = '-' then
      if "Infinity".data.isPrefixOf rest then some (JVal.jinf true, rest.drop 8)
      else parseJNumber (c :: rest)
    else if c.isDigit then parseJNumber (c :: rest)
    else none

/-- Parse a nonempty comma-separated list of JSON values up to `]`. -/
def parseJItems : Nat → List Char → Option (List JVal × List Char)
  | 0, _ => none
  | fuel + 1, l =>
    match parseJVal fuel (skipWs l) with
    | some (v, r) =>
      match skipWs r with
      | ',' :: r2 =>
        match parseJItems fuel r2 with
        | some (xs, r3) => some (v :: xs, r3)
        | none => none
      | ']' :: r2 => some ([v], r2)
      | _ => none
    | none => none

/-- Parse a nonempty comma-separated list of JSON object members up to
the closing brace. -/
def parseJMembers : Nat → List Char → Option (List (List Char × JVal) × List Char)
  | 0, _ => none
  | fuel + 1, l =>
    match skipWs l with
    | '"' :: r =>
      match parseJString r with
      | some (k, r1) =>
        match skipWs r1 with
        | ':' :: r2 =>
          match parseJVal fuel (skipWs r2) with
          | some (v, r3) =>
            match skipWs r3 with
            | ',' :: r4 =>
              match parseJMembers fuel r4 with
              | some (kvs, r5) => some ((k, v) :: kvs, r5)
              | none => none
            | '\x7d' :: r4 => some ([(k, v)], r4)
            | _ => none
          | none => none
        | _ => none
      | none => none
    | _ => none

end

/-- Model of `json.loads` (default settings): parse exactly one JSON document with
optional surrounding whitespace. -/
def jsonLoads (s : String) : Option JVal :=
  let l := skipWs s.data
  match parseJVal (2 * l.length + 4) l with
  | some (v, r) => if skipWs r = [] then some v else none
  | none => none

/-! ### `cmd_gen/utils.py` : `clean_json_output` -/

/-- Python `str.strip()` (ASCII whitespace). -/
def pyStrip (s : String) : String :=
  ⟨((s.data.dropWhile (fun c => wsChars.contains c)).reverse.dropWhile
      (fun c => wsChars.contains c)).reverse⟩

/-- The span matched by `re.search(r'\x7b.*\x7d', text, re.DOTALL)`: from the
first opening brace to the last closing brace, provided the latter comes
after the former. -/
def extractSpan (l : List Char) : Option (List Char) :=
  if 2 ≤ ((((l.dropWhile (fun c => c ≠ '\x7b')).reverse).dropWhile
      (fun c => c ≠ '\x7d')).reverse).length
  then some ((((l.dropWhile (fun c => c ≠ '\x7b')).reverse).dropWhile
      (fun c => c ≠ '\x7d')).reverse)
  else none

/-- Model of `clean_json_output` from `cmd_gen/utils.py`: return the brace-delimited
span if one exists, otherwise the raw text when it is itself valid JSON,
otherwise nothing. -/
def clean_json_output (response_text : String) : Option String :=
  match extractSpan response_text.data with
  | some r => some ⟨r⟩
  | none => if (jsonLoads response_text).isSome then some response_text else none

/-! ### `cmd_gen/llm_client.py` : `fix_json_string`

Each `re.sub` call in `fix_json_string` uses a pattern of the common shape
`literal-prefix, capture-of-a-run-of-characters-outside-a-stop-set,
literal-suffix`; `SubPat`/`applySub` implement Python's leftmost,
non-overlapping substitution for exactly that shape. -/

structure SubPat where
  pre : List Char
  stop : List Char
  post : List Char

/-- Try to match a `SubPat` at the head of `l`; on success return the
captured group and the number of characters consumed. -/
def subMatchAt (p : SubPat) (l : List Char) : Option (List Char × Nat) :=
  if p.pre.isPrefixOf l then
    let t := l.drop p.pre.length
    let g := t.takeWhile (fun c => !(p.stop.contains c))
    let t2 := t.drop g.length
    if p.post.isPrefixOf t2 then
      some (g, p.pre.length + g.length + p.post.length)
    else none
  else none

/-- Model of `re.sub` for a `SubPat`: scan left to right, replace each
non-overlapping match by `mk group`, continue after the match.  (Every
pattern used has a nonempty literal prefix, so a match consumes `n ≥ 1`
characters and `rest.drop (n - 1)` is the text after the match.) -/
def applySub (p : SubPat) (mk : List Char → List Char) : List Char → List Char
  | [] => []
  | c :: rest =>
    match subMatchAt p (c :: rest) with
    | some (g, n) => mk g ++ applySub p mk (rest.drop (n - 1))
    | none => c :: applySub p mk rest
  termination_by l => l.length
  decreasing_by
    all_goals simp [List.length_drop]
    all_goals omega

/-- Python `str.replace` (replace every occurrence, left to right). -/
def replaceAll (pat rep : List Char) : List Char → List Char
  | [] => []
  | c :: rest =>
    if h : pat ≠ [] ∧ pat.isPrefixOf (c :: rest) then
      rep ++ replaceAll pat rep ((c :: rest).drop pat.length)
    else c :: replaceAll pat rep rest
  termination_by l => l.length
  decreasing_by
    · have hp : 0 < pat.length := List.length_pos.mpr h.1
      simp [List.length_drop]
      omega
    · simp

/-- The chain of repairs applied by `fix_json_string` when the input is not
already valid JSON, in source order: re-quote single-quoted keys and values,
normalize `'true'`/`'false'`/`'null'`/`None`, re-quote single-quoted strings
inside bracketed arrays, and re-escape double quotes inside the value of the
`"command"` field (a no-op since the captured group cannot contain one). -/
def repairJson (l : List Char) : List Char :=
  let s1 := applySub ⟨['\x27'], ['\x27'], ['\x27', ':']⟩ (fun g => '"' :: g ++ ['"', ':']) l
  let s2 := applySub ⟨[':', ' ', '\x27'], ['\x27'], ['\x27']⟩
    (fun g => ':' :: ' ' :: '"' :: g ++ ['"']) s1
  let s3 := replaceAll "\x27true\x27".data "true".data s2
  let s4 := replaceAll "\x27false\x27".data "false".data s3
  let s5 := replaceAll "\x27null\x27".data "null".data s4
  let s6 := replaceAll "None".data "null".data s5
  let s7 := applySub ⟨['['], [']', '\n'], [']']⟩
    (fun g => '[' :: (applySub ⟨['\x27'], ['\x27'], ['\x27']⟩ (fun h => '"' :: h ++ ['"']) g) ++ [']']) s6
  let s8 := applySub ⟨"\"command\": \"".data, ['"'], ['"']⟩
    (fun g => "\"command\": \"".data ++
      (g.flatMap (fun c => if c = '"' then ['\\', '"'] else [c])) ++ ['"']) s7
  s8

/-- Model of `fix_json_string` from `cmd_gen/llm_client.py`: return the input
unchanged when it is already valid JSON, otherwise apply the repair chain. -/
def fix_json_string (json_str : String) : String :=
  if (jsonLoads json_str).isSome then json_str else ⟨repairJson json_str.data⟩

/-! ### `ast.literal_eval` fallback

`PVal` models the Python values `ast.literal_eval` can produce from a
JSON-like LLM response.  The parser models the literal forms such a response
can contain: single/double-quoted strings with the common escapes, decimal
integers and floats with one optional sign, `True`/`False`/`None`, lists,
tuples, sets and dicts with optional trailing commas.  (Not modelled, and
not producible by prompts of this tool: complex numbers, hex/octal/binary
integers, digit underscores, triple-quoted or adjacent-concatenated
strings.) -/

inductive PVal where
  | pnone
  | pbool (b : Bool)
  | pint (n : Int)
  | pfloat (m e : Int)
  | pstr (s : List Char)
  | plist (xs : List PVal)
  | ptuple (xs : List PVal)
  | pset (xs : List PVal)
  | pdict (kvs : List (PVal × PVal))
  deriving Repr

/-- Parse the body of a Python string literal with quote character `q`,
returning the decoded content and the rest after the closing quote.
Unknown escapes keep the backslash, as in Python. -/
def parsePyString (q : Char) : List Char → Option (List Char × List Char)
  | [] => none
  | c :: rest =>
    if c = q then some ([], rest)
    else if c = '\\' then
      match rest with
      | [] => none
      | e :: rest2 =>
        let dec : List Char :=
          if e = '\\' then ['\\'] else if e = '\x27' then ['\x27']
          else if e = '"' then ['"'] else if e = 'n' then ['\n']
          else if e = 't' then ['\t'] else if e = 'r' then ['\r']
          else if e = 'b' then ['\x08'] else if e = 'f' then ['\x0c']
          else if e = 'v' then ['\x0b'] else if e = 'a' then ['\x07']
          else if e = '0' then ['\x00'] else if e = '\n' then []
          else ['\\', e]
        match parsePyString q rest2 with
        | some (s, r) => some (dec ++ s, r)
        | none => none
    else if c = '\n' then none
    else
      match parsePyString q rest with
      | some (s, r) => some (c :: s, r)
      | none => none

/-- Parse an unsigned Python number literal (decimal integer or float). -/
def parsePyNumber (l : List Char) : Option (PVal × List Char) :=
  let ds := l.takeWhile Char.isDigit
  let r1 := l.dropWhile Char.isDigit
  let (fs, r2, isFloat) : List Char × List Char × Bool :=
    match r1 with
    | '.' :: t => (t.takeWhile Char.isDigit, t.dropWhile Char.isDigit, true)
    | _ => ([], r1, false)
  if ds = [] ∧ fs = [] then none
  else
    let hasExp := match r2 with
      | 'e' :: _ => true
      | 'E' :: _ => true
      | _ => false
    if hasExp then
      let t := r2.tail
      let (esign, t2) : Bool × List Char :=
        match t with
        | '-' :: tt => (true, tt)
        | '+' :: tt => (false, tt)
        | _ => (false, t)
      let es := t2.takeWhile Char.isDigit
      let r3 := t2.dropWhile Char.isDigit
      if es = [] then none
      else
        let ex : Int := (if esign then -(Int.ofNat (digitsVal es)) else Int.ofNat (digitsVal es)) -
          Int.ofNat fs.length
        some (PVal.pfloat (Int.ofNat (digitsVal (ds ++ fs))) ex, r3)
    else if isFloat then
      some (PVal.pfloat (Int.ofNat (digitsVal (ds ++ fs))) (-(Int.ofNat fs.length)), r2)
    else
      some (PVal.pint (Int.ofNat (digitsVal ds)), r2)

/-- Python whitespace skipped between literal tokens (approximation: the
expressions handled here sit inside brackets, where newlines are allowed). -/
def skipPyWs (l : List Char) : List Char := l.dropWhile (fun c => wsChars.contains c)

mutual

/-- Parse one Python literal expression (fuel-indexed). -/
def parsePyVal : Nat → List Char → Option (PVal × List Char)
  | 0, _ => none
  | _ + 1, [] => none
  | fuel + 1, c :: rest =>
    if c = '\x27' then
      match parsePyString '\x27' rest with
      | some (s, r) => some (PVal.pstr s, r)
      | none => none
    else if c = '"' then
      match parsePyString '"' rest with
      | some (s, r) => some (PVal.pstr s, r)
      | none => none
    else if c = 'T' then
      if "rue".data.isPrefixOf rest then some (PVal.pbool true, rest.drop 3) else none
    else if c = 'F' then
      if "alse".data.isPrefixOf rest then some (PVal.pbool false, rest.drop 4) else none
    else if c = 'N' then
      if "one".data.isPrefixOf rest then some (PVal.pnone, rest.drop 3) else none
    else if c = '[' then
      match skipPyWs rest with
      | ']' :: r => some (PVal.plist [], r)
      | t => match parsePyItems fuel ']' t with
             | some (xs, r) => some (PVal.plist xs, r)
             | none => none
    else if c = '(' then
      match skipPyWs rest with
      | ')' :: r => some (PVal.ptuple [], r)
      | t => match parsePyItems fuel ')' t with
             | some (xs, r) => some (PVal.ptuple xs, r)
             | none => none
    else if c = '\x7b' then
      match skipPyWs rest with
      | '\x7d' :: r => some (PVal.pdict [], r)
      | t => match parsePyDictOrSet fuel t with
             | some (v, r) => some (v, r)
             | none => none
    else if c = '-' ∨ c = '+' then
      match parsePyNumber (skipPyWs rest) with
      | some (PVal.pint n, r) => some (PVal.pint (if c = '-' then -n else n), r)
      | some (PVal.pfloat m e, r) => some (PVal.pfloat (if c = '-' then -m else m) e, r)
      | _ => none
    else if c.isDigit ∨ c = '.' then parsePyNumber (c :: rest)
    else none

/-- Parse a nonempty comma-separated sequence of Python literals up to the
closing bracket `close`; a trailing comma is allowed. -/
def parsePyItems : Nat → Char → List Char → Option (List PVal × List Char)
  | 0, _, _ => none
  | fuel + 1, close, l =>
    match parsePyVal fuel (skipPyWs l) with
    | some (v, r) =>
      match skipPyWs r with
      | ',' :: r2 =>
        match skipPyWs r2 with
        | d :: r3 =>
          if d = close then some ([v], r3)
          else
            match parsePyItems fuel close (d :: r3) with
            | some (xs, r4) => some (v :: xs, r4)
            | none => none
        | [] => none
      | d :: r2 => if d = close then some ([v], r2) else none
      | [] => none
    | none => none

/-- Parse a nonempty brace expression: a dict `k: v, …` or a set `v, …`,
decided by the token after the first element; trailing commas allowed. -/
def parsePyDictOrSet : Nat → List Char → Option (PVal × List Char)
  | 0, _ => none
  | fuel + 1, l =>
    match parsePyVal fuel (skipPyWs l) with
    | some (v, r) =>
      match skipPyWs r with
      | ':' :: r2 =>
        match parsePyVal fuel (skipPyWs r2) with
        | some (w, r3) =>
          match parsePyKVs fuel r3 with
          | some (kvs, r4) => some (PVal.pdict ((v, w) :: kvs), r4)
          | none => none
        | none => none
      | t =>
        match parsePySetRest fuel v t with
        | some (xs, r2) => some (PVal.pset xs, r2)
        | none => none
    | none => none

/-- After one dict entry: parse `, k: v`* up to the closing brace. -/
def parsePyKVs : Nat → List Char → Option (List (PVal × PVal) × List Char)
  | 0, _ => none
  | fuel + 1, l =>
    match skipPyWs l with
    | ',' :: r =>
      match skipPyWs r with
      | '\x7d' :: r2 => some ([], r2)
      | t =>
        match parsePyVal fuel t with
        | some (k, r2) =>
          match skipPyWs r2 with
          | ':' :: r3 =>
            match parsePyVal fuel (skipPyWs r3) with
            | some (v, r4) =>
              match parsePyKVs fuel r4 with
              | some (kvs, r5) => some ((k, v) :: kvs, r5)
              | none => none
            | none => none
          | _ => none
        | none => none
    | '\x7d' :: r => some ([], r)
    | _ => none

/-- After one set element (already parsed as `v`, rest begins at `t`):
parse `, v`* up to the closing brace. -/
def parsePySetRest : Nat → PVal → List Char → Option (List PVal × List Char)
  | 0, _, _ => none
  | fuel + 1, v, l =>
    match l with
    | ',' :: r =>
      match skipPyWs r with
      | '\x7d' :: r2 => some ([v], r2)
      | t =>
        match parsePyVal fuel t with
        | some (w, r2) =>
          match parsePySetRest fuel w (skipPyWs r2) with
          | some (xs, r3) => some (v :: xs, r3)
          | none => none
        | none => none
    | '\x7d' :: r => some ([v], r)
    | _ => none

end

/-- Model of `ast.literal_eval`: parse one literal expression with surrounding
whitespace. -/
def pyLiteralEval (s : String) : Option PVal :=
  let l := skipPyWs s.data
  match parsePyVal (2 * l.length + 4) l with
  | some (v, r) => if skipPyWs r = [] then some v else none
  | none => none

/-! ### `json.loads(json.dumps(result))` canonicalization -/

/-- Decimal representation of an integer. -/
def intToDecimal (n : Int) : List Char :=
  match n with
  | Int.ofNat m => Nat.toDigits 10 m
  | Int.negSucc m => '-' :: Nat.toDigits 10 (m + 1)

/-- The string `json.dumps` uses for a Python value appearing as a dict key
(`str` kept, `int`/`bool`/`None` coerced; other key types are not modelled
and map to failure, as `dumps` raises for them). -/
def canonKey : PVal → Option (List Char)
  | PVal.pstr s => some s
  | PVal.pint n => some (intToDecimal n)
  | PVal.pbool true => some "true".data
  | PVal.pbool false => some "false".data
  | PVal.pnone => some "null".data
  | _ => none

mutual

/-- Model of `json.loads(json.dumps(·))` : convert a Python value to the canonical
JSON value downstream consumers see; `none` models the `TypeError` raised
by `dumps` on unsupported values (e.g. sets). -/
def canonPy : PVal → Option JVal
  | PVal.pnone => some JVal.jnull
  | PVal.pbool b => some (JVal.jbool b)
  | PVal.pint n => some (JVal.jnum n 0)
  | PVal.pfloat m e => some (JVal.jnum m e)
  | PVal.pstr s => some (JVal.jstr s)
  | PVal.plist xs =>
      match canonPyList xs with
      | some ys => some (JVal.jarr ys)
      | none => none
  | PVal.ptuple xs =>
      match canonPyList xs with
      | some ys => some (JVal.jarr ys)
      | none => none
  | PVal.pset _ => none
  | PVal.pdict kvs =>
      match canonPyKVs kvs with
      | some ys => some (JVal.jobj (ys.foldl (fun a kv => insertKey a kv.1 kv.2) []))
      | none => none

def canonPyList : List PVal → Option (List JVal)
  | [] => some []
  | x :: xs =>
      match canonPy x, canonPyList xs with
      | some y, some ys => some (y :: ys)
      | _, _ => none

def canonPyKVs : List (PVal × PVal) → Option (List (List Char × JVal))
  | [] => some []
  | (k, v) :: xs =>
      match canonKey k, canonPy v, canonPyKVs xs with
      | some k', some v', some ys => some ((k', v') :: ys)
      | _, _, _ => none

end

/-! ### `generate_response` parsing pipeline -/

/-- The parsing pipeline of `LLMClient.generate_response` applied to the
raw text returned by the generator: strip, extract the JSON-looking span,
try strict parsing of the fixed text, then fall back to
`ast.literal_eval` on the cleaned text followed by a dumps/loads round
trip.  `none` models every path on which the source prints an error and
returns `None`. -/
def generate_response_parse (raw : String) : Option JVal :=
  match clean_json_output (pyStrip raw) with
  | none => none
  | some cleaned =>
    if cleaned = "" then none
    else
      match jsonLoads (fix_json_string cleaned) with
      | some v => some v
      | none =>
        match pyLiteralEval cleaned with
        | some pv => canonPy pv
        | none => none

/-! ### Observations on parsed objects (for the schema-typing claims) -/

/-- Lookup in `dict.get` style on a parsed object's member list. -/
def lookupKey (kvs : List (List Char × JVal)) (k : List Char) : Option JVal :=
  match kvs with
  | [] => none
  | (k', v) :: rest => if k' = k then some v else lookupKey rest k

/-- A present field is a JSON string (an absent field is unconstrained). -/
def isStrOpt : Option JVal → Bool
  | none => true
  | some (JVal.jstr _) => true
  | some _ => false

/-- Every element of a present `inputs` array is a JSON string (absent or
non-array values carry no element constraint). -/
def inputsOk : Option JVal → Bool
  | some (JVal.jarr xs) =>
      xs.all (fun x => match x with | JVal.jstr _ => true | _ => false)
  | _ => true

/-- All fields the response schema declares as strings (`command`,
`description`, `input_description`, `answer`, the elements of `inputs`)
have string type wherever they are present. -/
def schemaStringsOk (v : JVal) : Bool :=
  match v with
  | JVal.jobj kvs =>
      isStrOpt (lookupKey kvs "command".data) &&
      isStrOpt (lookupKey kvs "description".data) &&
      isStrOpt (lookupKey kvs "input_description".data) &&
      isStrOpt (lookupKey kvs "answer".data) &&
      inputsOk (lookupKey kvs "inputs".data)
  | _ => true

/-- Top-level key list of a parse result (used to tell two parses apart). -/
def jKeys : Option JVal → List (List Char)
  | some (JVal.jobj kvs) => kvs.map (fun kv => kv.1)
  | _ => []

/-! ### `cmd_gen/cli.py` and `command_generator.py` : the request flows

The flows are modelled as pure functions from the request data to an
outcome plus the list of user-visible events relevant to the claims:
displayed/copied commands and answers, error messages, advisory warnings,
and the two quiet-gated status prints of `main`.  The generator round
trips are represented by the raw texts they return (`none` standing for a
connectivity error caught inside `generate_response`).  Python exceptions
(`AttributeError` from calling string methods on `None` or non-strings)
are modelled with `Except.error`; `main` catches them and exits through
its catch-all handler.  Purely cosmetic console output (the input-required
banner, prompts, separators) and events already printed when an exception
is raised are not tracked; no claim depends on them. -/

inductive Ev where
  /-- The "Command Generator" banner (printed only when not quiet) -/
  | statusHeader
  /-- The "Analyzing your request..." status line (printed only when not quiet) -/
  | statusAnalyzing
  /-- Error from `validate_input`: "Potentially unsafe input detected" -/
  | errorUnsafeInput
  /-- Error message "LLM connection error: ..." -/
  | errorLLMConnection
  /-- Error message "Could not generate a valid response. Please try rephrasing your request." -/
  | errorNoValidResponse
  /-- Error message "Could not parse the LLM response as JSON. Please try again." -/
  | errorParse
  /-- Error from `audit_command`: "Unsafe command detected: ..." -/
  | errorUnsafeCommand (reason : String)
  /-- an advisory data-risk warning from `audit_command`'s second pass -/
  | warnDataRisk (warning : String)
  /-- Error message "Generated command was rejected: ..." from `generate_command_with_inputs` -/
  | errorRejected (reason : String)
  /-- Event recording that `display_command` showed this command to the user -/
  | displayedCommand (command : String)
  /-- Event recording that `pyperclip.copy` placed this command on the clipboard -/
  | copiedToClipboard (command : String)
  /-- Success message "Command copied to clipboard!" -/
  | successCopied
  /-- Error message "Failed to generate command. Please try again with a clearer request." -/
  | errorFailedGenerate
  /-- Event recording that `display_answer` showed this answer -/
  | displayedAnswer (answer : String)
  /-- Error message "Failed to generate an answer. Please try again with a clearer question." -/
  | errorFailedAnswer
  /-- Error message "Could not determine request type. Please be more specific." -/
  | errorUnclassified
  /-- Error message "An unexpected error occurred: ..." from the catch-all in `main` -/
  | errorUnexpected
  deriving Repr, DecidableEq

/-- Python truthiness of a JSON value. -/
def pyTruthy (v : JVal) : Bool :=
  match v with
  | JVal.jnull => false
  | JVal.jbool b => b
  | JVal.jnum m _ => !(m == 0)
  | JVal.jnan => true
  | JVal.jinf _ => true
  | JVal.jstr s => !s.isEmpty
  | JVal.jarr xs => !xs.isEmpty
  | JVal.jobj kvs => !kvs.isEmpty

/-- Python truthiness of a `dict.get` result (`None` is falsy). -/
def truthyOpt : Option JVal → Bool
  | none => false
  | some v => pyTruthy v

/-- Model of `requirements.get(key, False)` used as a boolean. -/
def getFlag (kvs : List (List Char × JVal)) (k : String) : Bool :=
  match lookupKey kvs k.data with
  | some v => pyTruthy v
  | none => false

/-- Model of `LLMClient.generate_response`: the parsed response (if any) and the
error message it prints on each failure path. -/
def generate_response_m (raw : Option String) : Option JVal × List Ev :=
  match raw with
  | none => (none, [Ev.errorLLMConnection])
  | some t =>
    match clean_json_output (pyStrip t) with
    | none => (none, [Ev.errorNoValidResponse])
    | some cleaned =>
      if cleaned = "" then (none, [Ev.errorNoValidResponse])
      else
        match jsonLoads (fix_json_string cleaned) with
        | some v => (some v, [])
        | none =>
          match pyLiteralEval cleaned with
          | some pv =>
            match canonPy pv with
            | some v => (some v, [])
            | none => (none, [Ev.errorParse])
          | none => (none, [Ev.errorParse])

/-- Model of `CommandGenerator.analyze_request`: reject unsafe input, otherwise ask
the generator (the directory-context string only enriches the prompt and
cannot change the outcome). -/
def analyze_request_m (prompt : String) (analysisRaw : Option String) :
    Option JVal × List Ev :=
  if validate_input prompt then generate_response_m analysisRaw
  else (none, [Ev.errorUnsafeInput])

/-- Model of `CommandGenerator.generate_command_with_inputs`: parse the finalization
response, audit its `command`, and return `(command, description)` or
`(None, None)`.  `audit_command` is called before the command is checked
for presence, so a missing or non-string `command` raises
(`Except.error`); likewise `response.get` on a truthy non-dict response. -/
def generate_command_with_inputs_m (finRaw : Option String) :
    Except Unit ((Option JVal × Option JVal) × List Ev) :=
  match generate_response_m finRaw with
  | (resp, ev0) =>
    match resp with
    | none => Except.ok ((none, none), ev0)
    | some r =>
      if pyTruthy r then
        match r with
        | JVal.jobj kvs =>
          match lookupKey kvs "command".data with
          | some (JVal.jstr s) =>
            let cmd : String := ⟨s⟩
            let res := audit_command cmd ""
            if res.1 then
              Except.ok ((some (JVal.jstr s), lookupKey kvs "description".data),
                ev0 ++ (audit_warnings cmd).map Ev.warnDataRisk)
            else
              Except.ok ((none, none),
                ev0 ++ [Ev.errorUnsafeCommand res.2, Ev.errorRejected res.2])
          | _ => Except.error ()
        | _ => Except.error ()
      else Except.ok ((none, none), ev0)

/-- Model of `cli.handle_command_request`: collect the command either directly from
the analysis result or through the finalization round trip, then display
and optionally copy it; an empty or missing command is the failed-generate
path, whose message is printed only when not quiet. -/
def handle_command_request_m (reqs : JVal) (finRaw : Option String)
    (copyChoice : String) (quiet : Bool) : Except Unit (Bool × List Ev) :=
  match reqs with
  | JVal.jobj kvs =>
    match (if getFlag kvs "requires_input" then generate_command_with_inputs_m finRaw
      else Except.ok ((lookupKey kvs "command".data, lookupKey kvs "description".data), [])) with
    | Except.error e => Except.error e
    | Except.ok ((command, _description), ev0) =>
      if truthyOpt command then
        match command with
        | some (JVal.jstr s) =>
          let cmd : String := ⟨s⟩
          let ch := pyLower (pyStrip copyChoice)
          let copyEv := if ch = "" ∨ ch = "y"
            then [Ev.copiedToClipboard cmd, Ev.successCopied] else []
          Except.ok (true, ev0 ++ Ev.displayedCommand cmd :: copyEv)
        | _ => Except.error ()
      else
        Except.ok (false, ev0 ++ (if quiet then [] else [Ev.errorFailedGenerate]))
  | _ => Except.error ()

/-- Model of `cli.handle_question_request`. -/
def handle_question_request_m (reqs : JVal) (quiet : Bool) :
    Except Unit (Bool × List Ev) :=
  match reqs with
  | JVal.jobj kvs =>
    let answer := lookupKey kvs "answer".data
    if truthyOpt answer then
      match answer with
      | some (JVal.jstr s) => Except.ok (true, [Ev.displayedAnswer ⟨s⟩])
      | _ => Except.error ()
    else Except.ok (false, if quiet then [] else [Ev.errorFailedAnswer])
  | _ => Except.error ()

/-- Terminal outcome of one CLI invocation. -/
inductive CliOutcome where
  | ok
  | fail
  | crashExit
  deriving Repr, DecidableEq

/-- Model of `cli.main` for one request: validate, analyze, branch on the request
type, and map any uncaught exception to the catch-all unexpected-error
exit. -/
def cliMain (prompt : String) (analysisRaw finalRaw : Option String)
    (copyChoice : String) (quiet : Bool) : CliOutcome × List Ev :=
  let ev0 := if quiet then [] else [Ev.statusHeader, Ev.statusAnalyzing]
  match analyze_request_m prompt analysisRaw with
  | (reqs, ev1) =>
    match reqs with
    | none => (CliOutcome.fail, ev0 ++ ev1)
    | some r =>
      if pyTruthy r then
        match r with
        | JVal.jobj kvs =>
          if getFlag kvs "is_command_request" then
            match handle_command_request_m r finalRaw copyChoice quiet with
            | Except.ok (true, ev2) => (CliOutcome.ok, ev0 ++ ev1 ++ ev2)
            | Except.ok (false, ev2) => (CliOutcome.fail, ev0 ++ ev1 ++ ev2)
            | Except.error _ => (CliOutcome.crashExit, ev0 ++ ev1 ++ [Ev.errorUnexpected])
          else if getFlag kvs "is_question" then
            match handle_question_request_m r quiet with
            | Except.ok (true, ev2) => (CliOutcome.ok, ev0 ++ ev1 ++ ev2)
            | Except.ok (false, ev2) => (CliOutcome.fail, ev0 ++ ev1 ++ ev2)
            | Except.error _ => (CliOutcome.crashExit, ev0 ++ ev1 ++ [Ev.errorUnexpected])
          else
            (CliOutcome.fail, ev0 ++ ev1 ++ (if quiet then [] else [Ev.errorUnclassified]))
        | _ => (CliOutcome.crashExit, ev0 ++ ev1 ++ [Ev.errorUnexpected])
      else (CliOutcome.fail, ev0 ++ ev1)

/-- The messages whose printing the source gates on `--quiet`: the two
startup status prints of `main` and the three content-free-failure
messages of the handlers. -/
def quietSuppressed : Ev → Bool
  | Ev.statusHeader => true
  | Ev.statusAnalyzing => true
  | Ev.errorFailedGenerate => true
  | Ev.errorFailedAnswer => true
  | Ev.errorUnclassified => true
  | _ => false

/-! ### Helper lemmas about the matcher -/

theorem isPrefixOf_append_self (w rest : List Char) : w.isPrefixOf (w ++ rest) = true :=
  List.isPrefixOf_iff_prefix.mpr (List.prefix_append w rest)

theorem prevAfter_cons (prev : Option Char) (a : Char) (as : List Char) :
    prevAfter prev (a :: as) = prevAfter (some a) as := by
  cases as with
  | nil => rfl
  | cons b bs =>
      have hs : ((b :: bs).getLast?).isSome = true := by
        rw [List.getLast?_isSome]; simp
      obtain ⟨c, hc⟩ := Option.isSome_iff_exists.mp hs
      simp [prevAfter, List.getLast?_cons_cons, hc]

/-- A match at a later position yields a successful search from an earlier
position. -/
theorem searchA_of_suffix (ats : List Atom) :
    ∀ (u : List Char) (prev : Option Char) (l : List Char),
      searchA ats (prevAfter prev u) l = true → searchA ats prev (u ++ l) = true := by
  intro u
  induction u with
  | nil =>
      intro prev l h
      simpa [prevAfter] using h
  | cons a as ih =>
      intro prev l h
      have h' : searchA ats (some a) (as ++ l) = true := by
        apply ih
        rwa [← prevAfter_cons]
      rw [List.cons_append]
      show (matchA ats prev (a :: (as ++ l)) || searchA ats (some a) (as ++ l)) = true
      rw [h', Bool.or_true]

/-- A match is a successful search. -/
theorem searchA_of_matchA (ats : List Atom) (prev : Option Char) (l : List Char)
    (h : matchA ats prev l = true) : searchA ats prev l = true := by
  cases l with
  | nil => simpa [searchA] using h
  | cons c rest => simp [searchA, h]

/-- The empty atom sequence matches anything. -/
theorem matchA_nil (prev : Option Char) (l : List Char) : matchA [] prev l = true := rfl

/-- Stepping a literal atom over the text it spells. -/
theorem matchA_lit_append (w : List Char) (ats : List Atom) (prev : Option Char)
    (l : List Char) (h : matchA ats (prevAfter prev w) l = true) :
    matchA (Atom.lit w :: ats) prev (w ++ l) = true := by
  simp only [matchA, isPrefixOf_append_self, List.drop_left, h, Bool.and_self]

/-- Stepping a word-bounded literal atom over the text it spells, given both
boundary conditions. -/
theorem matchA_wlit_append (w : List Char) (ats : List Atom) (prev : Option Char)
    (l : List Char)
    (hprev : ∀ c, prev = some c → wordChar c = false)
    (hnext : ∀ c, l.head? = some c → wordChar c = false)
    (h : matchA ats (prevAfter prev w) l = true) :
    matchA (Atom.wlit w :: ats) prev (w ++ l) = true := by
  simp only [matchA, isPrefixOf_append_self, List.drop_left]
  cases prev with
  | none =>
      cases hh : l.head? with
      | none => simp [h]
      | some c => simp [hnext c hh, h]
  | some c0 =>
      have hp := hprev c0 rfl
      cases hh : l.head? with
      | none => simp [hp, h]
      | some c => simp [hp, hnext c hh, h]

/-- If the continuation succeeds right here, a starred gap succeeds. -/
theorem gapScan_of_step (step : Option Char → List Char → Bool) (skip : Char → Bool)
    (prev : Option Char) (l : List Char) (h : step prev l = true) :
    gapScan step skip prev l = true := by
  cases l with
  | nil => simpa [gapScan] using h
  | cons c rest => simp [gapScan, h]

/-- A starred gap can absorb any run of characters its class accepts. -/
theorem gapScan_append (step : Option Char → List Char → Bool) (skip : Char → Bool) :
    ∀ (v : List Char) (prev : Option Char) (l : List Char),
      (∀ c ∈ v, skip c = true) →
      step (prevAfter prev v) l = true →
      gapScan step skip prev (v ++ l) = true := by
  intro v
  induction v with
  | nil =>
      intro prev l _ h
      rw [List.nil_append]
      apply gapScan_of_step
      simpa [prevAfter] using h
  | cons a as ih =>
      intro prev l hsk h
      rw [List.cons_append, gapScan]
      have ha : skip a = true := hsk a (by simp)
      have h' : gapScan step skip (some a) (as ++ l) = true := by
        apply ih
        · intro c hc; exact hsk c (by simp [hc])
        · rwa [← prevAfter_cons]
      simp [ha, h']

/-- A `.*` gap can absorb any newline-free text standing before the rest of
the match. -/
theorem matchA_gapAny_append (ats : List Atom) (v : List Char) (prev : Option Char)
    (l : List Char) (hnl : ∀ c ∈ v, c ≠ '\n')
    (h : matchA ats (prevAfter prev v) l = true) :
    matchA (Atom.gapAny :: ats) prev (v ++ l) = true := by
  show gapScan (matchA ats) (fun c => decide (c ≠ '\n')) prev (v ++ l) = true
  apply gapScan_append
  · intro c hc; simpa using hnl c hc
  · exact h

/-- A `\s*` gap can absorb any run of whitespace standing before the rest of
the match. -/
theorem matchA_gapWs_append (ats : List Atom) (v : List Char) (prev : Option Char)
    (l : List Char) (hws : ∀ c ∈ v, wsChars.contains c = true)
    (h : matchA ats (prevAfter prev v) l = true) :
    matchA (Atom.gapWs :: ats) prev (v ++ l) = true := by
  show gapScan (matchA ats) (fun c => wsChars.contains c) prev (v ++ l) = true
  exact gapScan_append _ _ v prev l hws h

/-! ### Facts about `is_safe_command` and `audit_command` -/

/-- The verdict component of `audit_command` is exactly the verdict of the
first (hard-rejection) pass. -/
theorem audit_fst_eq (cmd d : String) :
    (audit_command cmd d).1 = (is_safe_command cmd).1 := by
  unfold audit_command
  cases hs : is_safe_command cmd with
  | mk b s => cases b <;> simp

/-- The first pass accepts exactly when neither table produced a hit. -/
theorem is_safe_command_true_iff (cmd : String) :
    ((is_safe_command cmd).1 = true) ↔
      (BLOCKED_KEYWORDS.find? (fun k => listInfix k.data (pyLower cmd).data) = none ∧
        dangerous_patterns.find? (fun p => regexSearch p.1 cmd) = none) := by
  unfold is_safe_command
  cases hk : BLOCKED_KEYWORDS.find? (fun k => listInfix k.data (pyLower cmd).data) with
  | some k => simp
  | none =>
      cases hp : dangerous_patterns.find? (fun p => regexSearch p.1 cmd) with
      | some pr => simp
      | none => simp

/-- On an accepted command, `audit_command` returns the command unchanged. -/
theorem audit_command_accepts (cmd d : String)
    (h : (is_safe_command cmd).1 = true) : audit_command cmd d = (true, cmd) := by
  simp [audit_command, h]

/-- C2: for every command string that contains the substring "rm -rf" in any
letter case and every description string, `audit_command` returns a verdict
with `is_safe = false`  (the substring check on the lower-cased command hits
the first entry of `BLOCKED_KEYWORDS`). -/
theorem claim_C2_rm_rf_always_rejected (command description : String)
    (h : listInfix "rm -rf".data (pyLower command).data = true) :
    (audit_command command description).1 = false := by
  have hf : BLOCKED_KEYWORDS.find?
      (fun k => listInfix k.data (pyLower command).data) = some "rm -rf" := by
    unfold BLOCKED_KEYWORDS
    exact List.find?_cons_of_pos _ h
  unfold audit_command is_safe_command
  rw [hf]
  simp

/-- Witness for C2 at a concrete mixed-case input. -/
theorem claim_C2_witness :
    listInfix "rm -rf".data (pyLower "SuDo RM -rF /tmp").data = true ∧
    (audit_command "SuDo RM -rF /tmp" "remove tmp").1 = false :=
  ⟨by decide, claim_C2_rm_rf_always_rejected "SuDo RM -rF /tmp" "remove tmp" (by decide)⟩

/-- C3 counterexample: the claim fails in both of its parts.  In
`"chmod\n777"` the word `chmod` is followed later in the string by `777`,
yet `audit_command` accepts the command (the `.*` of `\bchmod\b.*777` does
not span the newline).  In `"sudo chmod 777 f"` the command is rejected but
with the blocked-keyword reason for `sudo`, not the permissions reason. -/
theorem claim_C3_counterexample :
    ("chmod\n777".data = "chmod".data ++ '\n' :: "777".data ∧
      audit_command "chmod\n777" "set permissions" = (true, "chmod\n777")) ∧
    ("sudo chmod 777 f".data =
        "sudo ".data ++ "chmod".data ++ ' ' :: "777".data ++ " f".data ∧
      audit_command "sudo chmod 777 f" "set permissions" =
        (false, "Command contains blocked keyword: sudo")) :=
  ⟨⟨rfl, by decide⟩, ⟨rfl, by decide⟩⟩

/-- C3 (amended): whenever the lower-cased command decomposes as
`u ++ "chmod" ++ v ++ "777" ++ w` with a word boundary on each side of
`chmod` and no newline inside `v`, `audit_command` rejects the command; and
the returned reason is the permissions reason provided no blocked keyword
occurs in the command and the two earlier dangerous patterns (`rm` with
`-r`/`-f`, and `format`) do not match. -/
theorem claim_C3_amended (command description : String) (u v w : List Char)
    (hdec : (pyLower command).data = u ++ ("chmod".data ++ (v ++ ("777".data ++ w))))
    (hub : ∀ c, u.getLast? = some c → wordChar c = false)
    (hvne : v ≠ [])
    (hvh : ∀ c, v.head? = some c → wordChar c = false)
    (hvnl : ∀ c ∈ v, c ≠ '\n') :
    (audit_command command description).1 = false ∧
    ((∀ k ∈ BLOCKED_KEYWORDS, listInfix k.data (pyLower command).data = false) →
      regexSearch rmPattern command = false →
      regexSearch formatPattern command = false →
      (audit_command command description).2 =
        "Command sets dangerous file permissions") := by
  have hsearch : regexSearch chmodPattern command = true := by
    unfold regexSearch
    rw [hdec]
    apply searchA_of_suffix
    apply searchA_of_matchA
    apply matchA_wlit_append
    · intro c hc
      apply hub
      unfold prevAfter at hc
      cases hg : u.getLast? with
      | none => rw [hg] at hc; exact hc
      | some c' => rw [hg] at hc; exact hc
    · intro c hc
      apply hvh
      cases v with
      | nil => exact absurd rfl hvne
      | cons a as => simpa using hc
    · apply matchA_gapAny_append _ _ _ _ hvnl
      apply matchA_lit_append
      exact matchA_nil _ _
  constructor
  · rw [audit_fst_eq]
    cases hk : BLOCKED_KEYWORDS.find? (fun k => listInfix k.data (pyLower command).data) with
    | some k => unfold is_safe_command; rw [hk]
    | none =>
        have hmem : (chmodPattern, "Command sets dangerous file permissions")
            ∈ dangerous_patterns := by unfold dangerous_patterns; simp
        have hsome : (dangerous_patterns.find? (fun p => regexSearch p.1 command)).isSome
            = true :=
          List.find?_isSome.mpr ⟨_, hmem, by simpa using hsearch⟩
        obtain ⟨pr, hpr⟩ := Option.isSome_iff_exists.mp hsome
        unfold is_safe_command
        rw [hk, hpr]
  · intro hnok hrm hfmt
    have hkn : BLOCKED_KEYWORDS.find?
        (fun k => listInfix k.data (pyLower command).data) = none :=
      List.find?_eq_none.mpr (fun k hkm => by simp [hnok k hkm])
    have hpat : dangerous_patterns.find? (fun p => regexSearch p.1 command) =
        some (chmodPattern, "Command sets dangerous file permissions") := by
      unfold dangerous_patterns
      rw [List.find?_cons_of_neg _ (by simpa using hrm),
        List.find?_cons_of_neg _ (by simpa using hfmt),
        List.find?_cons_of_pos _ (by simpa using hsearch)]
    unfold audit_command is_safe_command
    rw [hkn, hpat]
    simp

/-- Witness for the amended C3 at a concrete input. -/
theorem claim_C3_amended_witness :
    (audit_command "chmod a 777" "perm").1 = false ∧
    (audit_command "chmod a 777" "perm").2 = "Command sets dangerous file permissions" := by
  have h := claim_C3_amended "chmod a 777" "perm" [] " a ".data "".data
    (by decide) (by intro c hc; exact Option.noConfusion hc)
    (by decide) (by intro c hc; simp at hc; subst hc; decide)
    (by decide)
  exact ⟨h.1, h.2 (by decide) (by decide) (by decide)⟩

/-- C4: `audit_command` accepts exactly when no denylist keyword and no
dangerous pattern of Pass 1 matches; on acceptance the returned text is the
command unchanged, and re-auditing the accepted text returns the identical
verdict and text (the advisory Pass-2 table never alters the result). -/
theorem claim_C4_audit_verdict_contract (cmd d : String) :
    ((audit_command cmd d).1 = true ↔
      ((∀ k ∈ BLOCKED_KEYWORDS, listInfix k.data (pyLower cmd).data = false) ∧
        (∀ p ∈ dangerous_patterns, regexSearch p.1 cmd = false))) ∧
    ((audit_command cmd d).1 = true → (audit_command cmd d).2 = cmd) ∧
    ((audit_command cmd d).1 = true →
      audit_command ((audit_command cmd d).2) d = audit_command cmd d) := by
  refine ⟨?_, ?_, ?_⟩
  · rw [audit_fst_eq, is_safe_command_true_iff, List.find?_eq_none, List.find?_eq_none]
    simp [Bool.not_eq_true]
  · intro h
    have h' : (is_safe_command cmd).1 = true := by rwa [audit_fst_eq] at h
    rw [audit_command_accepts _ _ h']
  · intro h
    have h' : (is_safe_command cmd).1 = true := by rwa [audit_fst_eq] at h
    rw [audit_command_accepts _ _ h']
    exact audit_command_accepts _ _ h'

/-- Witness for C4 at a concrete accepted command. -/
theorem claim_C4_witness :
    (audit_command "ls -la" "list files").1 = true ∧
    (audit_command "ls -la" "list files").2 = "ls -la" ∧
    audit_command ((audit_command "ls -la" "list files").2) "list files" =
      audit_command "ls -la" "list files" := by
  have h := claim_C4_audit_verdict_contract "ls -la" "list files"
  have h1 : (audit_command "ls -la" "list files").1 = true := by decide
  exact ⟨h1, h.2.1 h1, h.2.2 h1⟩

/-- C10: the `description` argument never influences the result of
`audit_command` (the source accepts it but never reads it). -/
theorem claim_C10_description_never_influences (cmd d₁ d₂ : String) :
    audit_command cmd d₁ = audit_command cmd d₂ := rfl

/-! ### Lemmas about `dropWhile`, `pyStrip` and `clean_json_output` -/

theorem dropWhile_append_of_all {pred : Char → Bool} (a b : List Char)
    (h : ∀ c ∈ a, pred c = true) : (a ++ b).dropWhile pred = b.dropWhile pred := by
  induction a with
  | nil => rfl
  | cons c t ih =>
      simp only [List.cons_append, List.dropWhile_cons, h c (by simp), if_true]
      exact ih (fun x hx => h x (by simp [hx]))

theorem dropWhile_append_stable {pred : Char → Bool} (a b : List Char)
    (hb : b.dropWhile pred = b) : (a ++ b).dropWhile pred = a.dropWhile pred ++ b := by
  induction a with
  | nil => simpa using hb
  | cons c t ih =>
      by_cases h : pred c = true
      · simp [List.dropWhile_cons, h, ih]
      · have h' : pred c = false := by simpa using h
        simp [List.dropWhile_cons, h']

theorem mem_dropWhile {pred : Char → Bool} {c : Char} {l : List Char}
    (h : c ∈ l.dropWhile pred) : c ∈ l :=
  List.Sublist.mem h (List.dropWhile_sublist pred)

/-- Evaluation of `extractSpan` on a text whose only brace-delimited material is the
embedded document `sd`: the span is exactly `sd`. -/
theorem extractSpan_embedded (pl sd qr mid : List Char)
    (hs : sd = '\x7b' :: (mid ++ ['\x7d']))
    (hp : ∀ c ∈ pl, c ≠ '\x7b') (hq : ∀ c ∈ qr, c ≠ '\x7d') :
    extractSpan (pl ++ (sd ++ qr)) = some sd := by
  have h1 : (pl ++ (sd ++ qr)).dropWhile (fun c => c ≠ '\x7b') = sd ++ qr := by
    rw [dropWhile_append_of_all pl _ (fun c hc => by simpa using hp c hc), hs]
    simp [List.dropWhile_cons]
  have hrev : sd.reverse = '\x7d' :: (mid.reverse ++ ['\x7b']) := by
    rw [hs]
    simp
  have h2 : (sd ++ qr).reverse.dropWhile (fun c => c ≠ '\x7d') = sd.reverse := by
    rw [List.reverse_append]
    rw [dropWhile_append_of_all qr.reverse _ (fun c hc => by
      simpa using hq c (List.mem_reverse.mp hc))]
    rw [hrev]
    simp [List.dropWhile_cons]
  have hlen : 2 ≤ sd.length := by
    rw [hs]
    simp
  unfold extractSpan
  rw [h1, h2, List.reverse_reverse]
  simp [hlen]

/-- Evaluation of `pyStrip` on `p ++ s ++ q` when `s` starts with `{` and ends with `}`:
only the outer whitespace of `p` and `q` is removed. -/
theorem pyStrip_embedded (p s q : String) (mid : List Char)
    (hs : s.data = '\x7b' :: (mid ++ ['\x7d'])) :
    (pyStrip (p ++ s ++ q)).data =
      (p.data.dropWhile (fun c => wsChars.contains c)) ++
        (s.data ++ ((q.data.reverse.dropWhile (fun c => wsChars.contains c)).reverse)) := by
  have hsq : (s.data ++ q.data).dropWhile (fun c => wsChars.contains c) =
      s.data ++ q.data := by
    rw [hs, List.cons_append, List.dropWhile_cons]
    simp [wsChars]
  have hrev : s.data.reverse = '\x7d' :: (mid.reverse ++ ['\x7b']) := by
    rw [hs]
    simp
  have hsr : (s.data.reverse ++ (p.data.dropWhile (fun c => wsChars.contains c)).reverse).dropWhile
      (fun c => wsChars.contains c) =
      s.data.reverse ++ (p.data.dropWhile (fun c => wsChars.contains c)).reverse := by
    rw [hrev, List.cons_append, List.dropWhile_cons]
    simp [wsChars]
  have hdata : (p ++ s ++ q).data = p.data ++ (s.data ++ q.data) := by
    rw [String.data_append, String.data_append, List.append_assoc]
  show (((p ++ s ++ q).data.dropWhile (fun c => wsChars.contains c)).reverse.dropWhile
      (fun c => wsChars.contains c)).reverse = _
  rw [hdata, dropWhile_append_stable _ _ hsq]
  have h2 : (p.data.dropWhile (fun c => wsChars.contains c) ++ (s.data ++ q.data)).reverse =
      q.data.reverse ++ (s.data.reverse ++
        (p.data.dropWhile (fun c => wsChars.contains c)).reverse) := by
    simp [List.reverse_append]
  rw [h2, dropWhile_append_stable _ _ hsr]
  simp [List.reverse_append, List.append_assoc]

/-- Lemma that `clean_json_output` recovers exactly the embedded document. -/
theorem clean_json_output_embedded (x s : String) (pl qr mid : List Char)
    (hx : x.data = pl ++ (s.data ++ qr))
    (hs : s.data = '\x7b' :: (mid ++ ['\x7d']))
    (hp : ∀ c ∈ pl, c ≠ '\x7b') (hq : ∀ c ∈ qr, c ≠ '\x7d') :
    clean_json_output x = some s := by
  unfold clean_json_output
  rw [hx, extractSpan_embedded pl s.data qr mid hs hp hq]

/-- C5 (amended): if strict JSON text `s` (an object: it starts with `\x7b`
and ends with `\x7d`) is embedded in prose whose prefix contains no opening
brace and whose suffix contains no closing brace, then the pipeline parses
`prefix ++ s ++ suffix` successfully and returns exactly the value of
parsing `s` alone.  (As originally stated — for arbitrary surrounding
prose — the claim is false: a brace in the prose widens the greedy
first-`\x7b`-to-last-`\x7d` span.) -/
theorem claim_C5_amended (p s q : String) (mid : List Char) (v : JVal)
    (hs : s.data = '\x7b' :: (mid ++ ['\x7d']))
    (hv : jsonLoads s = some v)
    (hp : ∀ c ∈ p.data, c ≠ '\x7b')
    (hq : ∀ c ∈ q.data, c ≠ '\x7d') :
    generate_response_parse (p ++ s ++ q) = some v ∧
    generate_response_parse s = some v := by
  have hsne : s ≠ "" := by
    intro h
    rw [h] at hs
    exact List.noConfusion hs
  have hfix : fix_json_string s = s := by
    unfold fix_json_string
    rw [hv]
    rfl
  constructor
  · have hclean : clean_json_output (pyStrip (p ++ s ++ q)) = some s := by
      apply clean_json_output_embedded _ s
        (p.data.dropWhile (fun c => wsChars.contains c))
        ((q.data.reverse.dropWhile (fun c => wsChars.contains c)).reverse) mid
      · exact pyStrip_embedded p s q mid hs
      · exact hs
      · exact fun c hc => hp c (mem_dropWhile hc)
      · exact fun c hc =>
          hq c (List.mem_reverse.mp (mem_dropWhile (List.mem_reverse.mp hc)))
    unfold generate_response_parse
    rw [hclean]
    simp [hsne, hfix, hv]
  · have hstrip : (pyStrip s).data = [] ++ (s.data ++ []) := by
      have h1 : s.data.dropWhile (fun c => wsChars.contains c) = s.data := by
        rw [hs, List.dropWhile_cons]
        simp [wsChars]
      have h2 : s.data.reverse.dropWhile (fun c => wsChars.contains c) = s.data.reverse := by
        have hrev : s.data.reverse = '\x7d' :: (mid.reverse ++ ['\x7b']) := by
          rw [hs]
          simp
        rw [hrev, List.dropWhile_cons]
        simp [wsChars]
      show ((s.data.dropWhile _).reverse.dropWhile _).reverse = _
      rw [h1, h2, List.reverse_reverse]
      simp
    have hclean : clean_json_output (pyStrip s) = some s := by
      apply clean_json_output_embedded _ s [] [] mid hstrip hs
      · intro c hc
        exact absurd hc (List.not_mem_nil c)
      · intro c hc
        exact absurd hc (List.not_mem_nil c)
    unfold generate_response_parse
    rw [hclean]
    simp [hsne, hfix, hv]

/-- Witness for the amended C5 at a concrete embedding. -/
theorem claim_C5_amended_witness :
    generate_response_parse ("Sure! Here it is: " ++ "\x7b\"command\": \"ls\"\x7d" ++ ". Enjoy.") =
      some (JVal.jobj [("command".data, JVal.jstr "ls".data)]) ∧
    generate_response_parse "\x7b\"command\": \"ls\"\x7d" =
      some (JVal.jobj [("command".data, JVal.jstr "ls".data)]) := by
  have h := claim_C5_amended "Sure! Here it is: " "\x7b\"command\": \"ls\"\x7d" ". Enjoy."
    ("\"command\": \"ls\"".data) (JVal.jobj [("command".data, JVal.jstr "ls".data)])
    (by decide) rfl (by decide) (by decide)
  exact h

/-- C5 counterexample: the claim quantifies over arbitrary prose, but a
brace inside the prose breaks it.  With prefix `"\x7b\"outer\": "`, strict
JSON `s = "\x7b\"command\": \"ls\"\x7d"` and suffix `"\x7d"`, parsing the
concatenation succeeds yet returns an object different from the result of
parsing `s` alone (the greedy span swallows the prose braces). -/
theorem claim_C5_counterexample :
    "\x7b\"outer\": \x7b\"command\": \"ls\"\x7d\x7d" =
      "\x7b\"outer\": " ++ "\x7b\"command\": \"ls\"\x7d" ++ "\x7d" ∧
    (jsonLoads "\x7b\"command\": \"ls\"\x7d").isSome = true ∧
    generate_response_parse "\x7b\"outer\": \x7b\"command\": \"ls\"\x7d\x7d" =
      some (JVal.jobj [("outer".data,
        JVal.jobj [("command".data, JVal.jstr "ls".data)])]) ∧
    generate_response_parse "\x7b\"command\": \"ls\"\x7d" =
      some (JVal.jobj [("command".data, JVal.jstr "ls".data)]) ∧
    jKeys (generate_response_parse "\x7b\"outer\": \x7b\"command\": \"ls\"\x7d\x7d") ≠
      jKeys (generate_response_parse "\x7b\"command\": \"ls\"\x7d") := by
  refine ⟨rfl, by decide, rfl, rfl, ?_⟩
  intro h
  rw [show generate_response_parse "\x7b\"outer\": \x7b\"command\": \"ls\"\x7d\x7d" =
      some (JVal.jobj [("outer".data,
        JVal.jobj [("command".data, JVal.jstr "ls".data)])]) from rfl,
    show generate_response_parse "\x7b\"command\": \"ls\"\x7d" =
      some (JVal.jobj [("command".data, JVal.jstr "ls".data)]) from rfl] at h
  exact absurd h (by decide)

/-- C6 counterexample: the parser performs no schema validation.  The raw
text `\x7b"command": 123\x7d` parses successfully and binds the
schema-string field `command` to a number. -/
theorem claim_C6_counterexample :
    generate_response_parse "\x7b\"command\": 123\x7d" =
      some (JVal.jobj [("command".data, JVal.jnum 123 0)]) ∧
    schemaStringsOk (JVal.jobj [("command".data, JVal.jnum 123 0)]) = false :=
  ⟨rfl, by decide⟩

/-- C6 (amended): on success through the strict path the pipeline returns
the parsed JSON value as-is — no type validation or coercion is applied, so
a schema-string field has string type exactly when the underlying JSON
binds it to a string, and nothing more can be guaranteed. -/
theorem claim_C6_amended (raw cleaned : String) (v : JVal)
    (hc : clean_json_output (pyStrip raw) = some cleaned)
    (hne : cleaned ≠ "")
    (hj : jsonLoads (fix_json_string cleaned) = some v) :
    generate_response_parse raw = some v := by
  unfold generate_response_parse
  rw [hc]
  simp [hne, hj]

/-- Witness for the amended C6. -/
theorem claim_C6_amended_witness :
    generate_response_parse "\x7b\"command\": 1, \"description\": null\x7d" =
      some (JVal.jobj [("command".data, JVal.jnum 1 0),
        ("description".data, JVal.jnull)]) :=
  claim_C6_amended "\x7b\"command\": 1, \"description\": null\x7d"
    "\x7b\"command\": 1, \"description\": null\x7d"
    (JVal.jobj [("command".data, JVal.jnum 1 0), ("description".data, JVal.jnull)])
    rfl (by decide) rfl

/-! ### Case-folding transfer lemmas for the validator claims -/

theorem pyLowerChar_ne_newline {c : Char} (h : c ≠ '\n') : pyLowerChar c ≠ '\n' := by
  unfold pyLowerChar
  cases hf : ucPairs.find? (fun p => p.1 = c) with
  | none => exact h
  | some p =>
      have hmem : p ∈ ucPairs := List.mem_of_find?_eq_some hf
      have hall : ∀ q ∈ ucPairs, q.2 ≠ '\n' := by decide
      exact hall p hmem

theorem pyLowerChar_ws {c : Char} (h : wsChars.contains c = true) : pyLowerChar c = c := by
  have hmem : c ∈ wsChars := by simpa using h
  have hfind : ucPairs.find? (fun p => p.1 = c) = none := by
    apply List.find?_eq_none.mpr
    intro q hq
    have hall : ∀ q ∈ ucPairs, ∀ w ∈ wsChars, q.1 ≠ w := by decide
    simpa using hall q hq c hmem
  unfold pyLowerChar
  rw [hfind]

/-- C7 counterexample: `"\x60a\nb\x60"` contains a backtick-quoted
substring, yet `validate_input` accepts it — the `.*` of the backtick
pattern does not span the newline, and no other injection pattern fires. -/
theorem claim_C7_counterexample :
    "\x60a\nb\x60".data = [] ++ ('\x60' :: ("a\nb".data ++ ('\x60' :: []))) ∧
    validate_input "\x60a\nb\x60" = true :=
  ⟨rfl, by decide⟩

/-- C7 (amended): `validate_input` returns false for every text containing
a backtick-quoted substring whose content has no newline, or a
`$( ... )` substring whose content splits into a whitespace run, a
newline-free run and a whitespace run; and the caller `analyze_request`
treats false as rejecting the whole request (it returns no result, only
the unsafe-input error).  (As originally stated the claim is false: the
quoted content may span a newline, which defeats both patterns.) -/
theorem claim_C7_amended (text : String)
    (h : (∃ u v w, text.data = u ++ ('\x60' :: (v ++ ('\x60' :: w))) ∧
            ∀ c ∈ v, c ≠ '\n') ∨
         (∃ u a b d w, text.data = u ++ ('$' :: '(' :: (a ++ (b ++ (d ++ (')' :: w))))) ∧
            (∀ c ∈ a, wsChars.contains c = true) ∧ (∀ c ∈ b, c ≠ '\n') ∧
            (∀ c ∈ d, wsChars.contains c = true))) :
    validate_input text = false ∧
    ∀ raw, analyze_request_m text raw = (none, [Ev.errorUnsafeInput]) := by
  have hany : injection_patterns.any (fun p => regexSearch p text) = true := by
    rcases h with ⟨u, v, w, hdec, hv⟩ | ⟨u, a, b, d, w, hdec, ha, hb, hd⟩
    · apply List.any_eq_true.mpr
      refine ⟨[Atom.lit ['\x60'], Atom.gapAny, Atom.lit ['\x60']], ?_, ?_⟩
      · unfold injection_patterns
        simp
      · show regexSearch _ text = true
        unfold regexSearch pyLower
        show searchA _ none (text.data.map pyLowerChar) = true
        rw [hdec]
        have hmap : (u ++ ('\x60' :: (v ++ ('\x60' :: w)))).map pyLowerChar =
            u.map pyLowerChar ++
              ('\x60' :: (v.map pyLowerChar ++ ('\x60' :: w.map pyLowerChar))) := by
          simp [show pyLowerChar '\x60' = '\x60' from rfl]
        rw [hmap]
        apply searchA_of_suffix
        apply searchA_of_matchA
        show matchA _ _ (['\x60'] ++ (v.map pyLowerChar ++ ('\x60' :: w.map pyLowerChar))) = true
        apply matchA_lit_append
        apply matchA_gapAny_append
        · intro c hc
          rcases List.mem_map.mp hc with ⟨x, hx, hxc⟩
          rw [← hxc]
          exact pyLowerChar_ne_newline (hv x hx)
        · show matchA _ _ (['\x60'] ++ w.map pyLowerChar) = true
          apply matchA_lit_append
          exact matchA_nil _ _
    · apply List.any_eq_true.mpr
      refine ⟨[Atom.lit ['$', '('], Atom.gapWs, Atom.gapAny, Atom.gapWs, Atom.lit [')']],
        ?_, ?_⟩
      · unfold injection_patterns
        simp
      · show regexSearch _ text = true
        unfold regexSearch pyLower
        show searchA _ none (text.data.map pyLowerChar) = true
        rw [hdec]
        have hmap : (u ++ ('$' :: '(' :: (a ++ (b ++ (d ++ (')' :: w)))))).map pyLowerChar =
            u.map pyLowerChar ++
              ('$' :: '(' :: (a.map pyLowerChar ++ (b.map pyLowerChar ++
                (d.map pyLowerChar ++ (')' :: w.map pyLowerChar))))) := by
          simp [show pyLowerChar '$' = '$' from rfl, show pyLowerChar '(' = '(' from rfl,
            show pyLowerChar ')' = ')' from rfl]
        rw [hmap]
        apply searchA_of_suffix
        apply searchA_of_matchA
        show matchA _ _ (['$', '('] ++ (a.map pyLowerChar ++ (b.map pyLowerChar ++
          (d.map pyLowerChar ++ (')' :: w.map pyLowerChar))))) = true
        apply matchA_lit_append
        apply matchA_gapWs_append
        · intro c hc
          rcases List.mem_map.mp hc with ⟨x, hx, hxc⟩
          rw [← hxc, pyLowerChar_ws (ha x hx)]
          exact ha x hx
        apply matchA_gapAny_append
        · intro c hc
          rcases List.mem_map.mp hc with ⟨x, hx, hxc⟩
          rw [← hxc]
          exact pyLowerChar_ne_newline (hb x hx)
        apply matchA_gapWs_append
        · intro c hc
          rcases List.mem_map.mp hc with ⟨x, hx, hxc⟩
          rw [← hxc, pyLowerChar_ws (hd x hx)]
          exact hd x hx
        show matchA _ _ ([')'] ++ w.map pyLowerChar) = true
        apply matchA_lit_append
        exact matchA_nil _ _
  have hval : validate_input text = false := by
    unfold validate_input
    rw [hany]
    rfl
  refine ⟨hval, fun raw => ?_⟩
  unfold analyze_request_m
  rw [hval]
  rfl

/-- Witness for the amended C7 at a concrete input. -/
theorem claim_C7_amended_witness :
    validate_input "\x60ls\x60" = false ∧
    analyze_request_m "\x60ls\x60" none = (none, [Ev.errorUnsafeInput]) := by
  have h := claim_C7_amended "\x60ls\x60"
    (Or.inl ⟨[], "ls".data, [], by decide, by decide⟩)
  exact ⟨h.1, h.2 none⟩

/-- C1 evaluated at the failing input: in the direct flow
(`requires_input` absent/false) the command is displayed and copied without
ever being passed to `CommandAuditor`, even though the audit would reject
it.  (The audit is invoked only inside `generate_command_with_inputs`,
i.e. only on the follow-up-inputs flow.) -/
theorem claim_C1_direct_flow_skips_audit :
    handle_command_request_m
      (JVal.jobj [("is_command_request".data, JVal.jbool true),
        ("command".data, JVal.jstr "sudo rm -rf /".data),
        ("description".data, JVal.jstr "cleanup".data)]) none "" false =
      Except.ok (true, [Ev.displayedCommand "sudo rm -rf /",
        Ev.copiedToClipboard "sudo rm -rf /", Ev.successCopied]) ∧
    (audit_command "sudo rm -rf /" "cleanup").1 = false :=
  ⟨rfl, by decide⟩

/-- C8 evaluated at the failing input: when the finalization response lacks
the `command` key, `generate_command_with_inputs` passes `None` to
`audit_command`, which raises (`None.lower()`); the request then terminates
through `main`'s unexpected-error catch-all, not with the
failed-to-generate-command message. -/
theorem claim_C8_missing_command_crashes :
    generate_command_with_inputs_m (some "\x7b\"description\": \"done\"\x7d") =
      Except.error () ∧
    cliMain "commit my changes"
      (some ("\x7b\"is_command_request\": true, \"requires_input\": true, " ++
        "\"command\": \"git commit -m MSG\", \"inputs\": [\"commit message\"]\x7d"))
      (some "\x7b\"description\": \"done\"\x7d") "" false =
      (CliOutcome.crashExit, [Ev.statusHeader, Ev.statusAnalyzing, Ev.errorUnexpected]) :=
  ⟨rfl, rfl⟩

/-- C9 counterexample: in quiet mode an unclassified request (neither
`is_command_request` nor `is_question`) terminates as a failure with no
message at all, while the same request without quiet prints the
could-not-determine-request-type error: the hard failure is silently
swallowed. -/
theorem claim_C9_counterexample :
    cliMain "hello" (some "\x7b\"foo\": 1\x7d") none "" true = (CliOutcome.fail, []) ∧
    cliMain "hello" (some "\x7b\"foo\": 1\x7d") none "" false =
      (CliOutcome.fail, [Ev.statusHeader, Ev.statusAnalyzing, Ev.errorUnclassified]) :=
  ⟨rfl, rfl⟩

/-! ### Quiet-mode event accounting (for the amended C9) -/

theorem filter_keep_of_all {l : List Ev} (h : ∀ e ∈ l, quietSuppressed e = false) :
    l.filter (fun e => !quietSuppressed e) = l :=
  List.filter_eq_self.mpr (fun a ha => by simp [h a ha])

theorem qs_statusHeader : quietSuppressed Ev.statusHeader = true := rfl

theorem qs_statusAnalyzing : quietSuppressed Ev.statusAnalyzing = true := rfl

theorem qs_errorUnexpected : quietSuppressed Ev.errorUnexpected = false := rfl

theorem qs_errorUnclassified : quietSuppressed Ev.errorUnclassified = true := rfl

theorem qs_errorFailedGenerate : quietSuppressed Ev.errorFailedGenerate = true := rfl

theorem gr_not_suppressed (raw : Option String) :
    ∀ e ∈ (generate_response_m raw).2, quietSuppressed e = false := by
  intro e he
  unfold generate_response_m at he
  cases raw with
  | none =>
      simp at he
      subst he
      rfl
  | some t =>
      dsimp only at he
      rcases hclean : clean_json_output (pyStrip t) with _ | cleaned
      · rw [hclean] at he
        simp at he
        subst he
        rfl
      · rw [hclean] at he
        by_cases hne : cleaned = ""
        · simp [hne] at he
          subst he
          rfl
        · simp only [if_neg hne] at he
          rcases hj : jsonLoads (fix_json_string cleaned) with _ | v
          · rw [hj] at he
            dsimp only at he
            rcases hlit : pyLiteralEval cleaned with _ | pv
            · rw [hlit] at he
              simp at he
              subst he
              rfl
            · rw [hlit] at he
              dsimp only at he
              rcases hcp : canonPy pv with _ | v'
              · rw [hcp] at he
                simp at he
                subst he
                rfl
              · rw [hcp] at he
                simp at he
          · rw [hj] at he
            simp at he

theorem analyze_events_not_suppressed (prompt : String) (aRaw : Option String) :
    ∀ e ∈ (analyze_request_m prompt aRaw).2, quietSuppressed e = false := by
  unfold analyze_request_m
  by_cases hv : validate_input prompt
  · rw [if_pos hv]
    exact gr_not_suppressed aRaw
  · rw [if_neg hv]
    intro e he
    simp at he
    subst he
    rfl

theorem gci_events_not_suppressed (finRaw : Option String)
    (r : (Option JVal × Option JVal) × List Ev)
    (h : generate_command_with_inputs_m finRaw = Except.ok r) :
    ∀ e ∈ r.2, quietSuppressed e = false := by
  have hgr0 := gr_not_suppressed finRaw
  unfold generate_command_with_inputs_m at h
  cases hgr : generate_response_m finRaw with
  | mk resp ev0 =>
    rw [hgr] at h hgr0
    dsimp only at h hgr0
    have hev0 : ∀ e ∈ ev0, quietSuppressed e = false := hgr0
    cases resp with
    | none =>
        dsimp only at h
        injection h with h'
        subst h'
        exact hev0
    | some rv =>
        dsimp only at h
        by_cases ht : pyTruthy rv
        · rw [if_pos ht] at h
          cases rv with
          | jobj kvs =>
              dsimp only at h
              rcases hcmd : lookupKey kvs "command".data with _ | cv
              · rw [hcmd] at h
                simp at h
              · rw [hcmd] at h
                cases cv with
                | jstr s =>
                    dsimp only at h
                    by_cases hsafe : (audit_command ⟨s⟩ "").1 = true
                    · rw [if_pos hsafe] at h
                      injection h with h'
                      subst h'
                      intro e he
                      rcases List.mem_append.mp he with h1 | h2
                      · exact hev0 e h1
                      · rcases List.mem_map.mp h2 with ⟨w, _, hw⟩
                        rw [← hw]
                        rfl
                    · rw [if_neg hsafe] at h
                      injection h with h'
                      subst h'
                      intro e he
                      rcases List.mem_append.mp he with h1 | h2
                      · exact hev0 e h1
                      · simp at h2
                        rcases h2 with h2 | h2 <;> rw [h2] <;> rfl
                | jnull => simp at h
                | jbool b => simp at h
                | jnum m e' => simp at h
                | jnan => simp at h
                | jinf n => simp at h
                | jarr xs => simp at h
                | jobj kvs' => simp at h
          | jnull => simp at h
          | jbool b => simp at h
          | jnum m e' => simp at h
          | jnan => simp at h
          | jinf n => simp at h
          | jarr xs => simp at h
          | jstr s => simp at h
        · rw [if_neg ht] at h
          injection h with h'
          subst h'
          exact hev0

/-- Quiet mode changes `handle_command_request` only by filtering out the
suppressed failed-generate message. -/
theorem handle_cmd_quiet (reqs : JVal) (finRaw : Option String) (copyChoice : String) :
    handle_command_request_m reqs finRaw copyChoice true =
      Except.map (fun r => (r.1, r.2.filter (fun e => !quietSuppressed e)))
        (handle_command_request_m reqs finRaw copyChoice false) := by
  cases reqs with
  | jobj kvs =>
      unfold handle_command_request_m
      dsimp only
      cases hstep : (if getFlag kvs "requires_input" = true then generate_command_with_inputs_m finRaw
        else Except.ok ((lookupKey kvs "command".data, lookupKey kvs "description".data), [])) with
      | error e => rfl
      | ok pr =>
          obtain ⟨⟨command, desc⟩, ev0⟩ := pr
          have hev0 : ∀ e ∈ ev0, quietSuppressed e = false := by
            by_cases hri : getFlag kvs "requires_input" = true
            · rw [if_pos hri] at hstep
              exact gci_events_not_suppressed finRaw _ hstep
            · rw [if_neg hri] at hstep
              injection hstep with h'
              have hnil : ev0 = [] := (congrArg Prod.snd h').symm
              rw [hnil]
              intro e he
              exact absurd he (List.not_mem_nil e)
          dsimp only
          by_cases htr : truthyOpt command = true
          · rw [if_pos htr, if_pos htr]
            cases command with
            | none => exact absurd htr (by simp [truthyOpt])
            | some cv =>
                cases cv with
                | jstr s =>
                    dsimp only
                    simp only [Except.map]
                    have hall : ∀ e ∈ ev0 ++ Ev.displayedCommand ⟨s⟩ ::
                        (if pyLower (pyStrip copyChoice) = "" ∨ pyLower (pyStrip copyChoice) = "y"
                          then [Ev.copiedToClipboard ⟨s⟩, Ev.successCopied] else []),
                        quietSuppressed e = false := by
                      intro e he
                      rcases List.mem_append.mp he with h1 | h2
                      · exact hev0 e h1
                      · rcases List.mem_cons.mp h2 with h3 | h4
                        · rw [h3]
                          rfl
                        · by_cases hch : pyLower (pyStrip copyChoice) = "" ∨
                              pyLower (pyStrip copyChoice) = "y"
                          · rw [if_pos hch] at h4
                            rcases List.mem_cons.mp h4 with h5 | h6
                            · rw [h5]
                              rfl
                            · simp at h6
                              rw [h6]
                              rfl
                          · rw [if_neg hch] at h4
                            exact absurd h4 (List.not_mem_nil e)
                    rw [filter_keep_of_all hall]
                | jnull => rfl
                | jbool b => rfl
                | jnum m e' => rfl
                | jnan => rfl
                | jinf n => rfl
                | jarr xs => rfl
                | jobj kvs' => rfl
          · rw [if_neg htr, if_neg htr]
            simp [Except.map, List.filter_append, List.filter_cons,
              filter_keep_of_all hev0, qs_errorFailedGenerate]
  | jnull => rfl
  | jbool b => rfl
  | jnum m e' => rfl
  | jnan => rfl
  | jinf n => rfl
  | jstr s => rfl
  | jarr xs => rfl

/-- Quiet mode changes `handle_question_request` only by filtering out the
suppressed failed-answer message. -/
theorem handle_q_quiet (reqs : JVal) :
    handle_question_request_m reqs true =
      Except.map (fun r => (r.1, r.2.filter (fun e => !quietSuppressed e)))
        (handle_question_request_m reqs false) := by
  cases reqs with
  | jobj kvs =>
      unfold handle_question_request_m
      dsimp only
      by_cases ht : truthyOpt (lookupKey kvs "answer".data) = true
      · rw [if_pos ht, if_pos ht]
        cases hlk : lookupKey kvs "answer".data with
        | none => rfl
        | some av => cases av <;> rfl
      · rw [if_neg ht, if_neg ht]
        rfl
  | jnull => rfl
  | jbool b => rfl
  | jnum m e' => rfl
  | jnan => rfl
  | jinf n => rfl
  | jstr s => rfl
  | jarr xs => rfl

/-- C9 (amended): quiet mode never changes the outcome, and its visible
output is exactly the normal-mode output with the suppressed messages
removed — the two startup status prints and the failed-generate,
failed-answer and unclassified-request errors.  Audit rejections, parse
failures, input-validation errors, warnings and deliveries are emitted
identically in both modes; but the three content-free failures above are
hard failures that quiet mode silences, contrary to the original claim. -/
theorem claim_C9_amended (prompt : String) (aRaw fRaw : Option String)
    (copyChoice : String) :
    (cliMain prompt aRaw fRaw copyChoice true).1 =
      (cliMain prompt aRaw fRaw copyChoice false).1 ∧
    (cliMain prompt aRaw fRaw copyChoice true).2 =
      ((cliMain prompt aRaw fRaw copyChoice false).2).filter
        (fun e => !quietSuppressed e) := by
  have hev1' := analyze_events_not_suppressed prompt aRaw
  cases hana : analyze_request_m prompt aRaw with
  | mk reqs ev1 =>
    rw [hana] at hev1'
    have hfil1 : ev1.filter (fun e => !quietSuppressed e) = ev1 := filter_keep_of_all hev1'
    unfold cliMain
    rw [hana]
    dsimp only
    cases reqs with
    | none =>
        constructor
        · rfl
        · simp [List.filter_append, List.filter_cons, qs_statusHeader,
              qs_statusAnalyzing, qs_errorUnexpected, qs_errorUnclassified, hfil1]
    | some r =>
      dsimp only
      by_cases htr : pyTruthy r = true
      · rw [if_pos htr, if_pos htr]
        cases r with
        | jobj kvs =>
            dsimp only
            by_cases hic : getFlag kvs "is_command_request" = true
            · rw [if_pos hic, if_pos hic]
              have hrel := handle_cmd_quiet (JVal.jobj kvs) fRaw copyChoice
              cases hh : handle_command_request_m (JVal.jobj kvs) fRaw copyChoice false with
              | error e =>
                  rw [hh] at hrel
                  simp only [Except.map] at hrel
                  rw [hrel]
                  dsimp only
                  constructor
                  · rfl
                  · simp [List.filter_append, List.filter_cons, qs_statusHeader,
              qs_statusAnalyzing, qs_errorUnexpected, qs_errorUnclassified, hfil1]
              | ok pr =>
                  obtain ⟨b, evs⟩ := pr
                  rw [hh] at hrel
                  simp only [Except.map] at hrel
                  rw [hrel]
                  cases b
                  · constructor
                    · rfl
                    · simp [List.filter_append, List.filter_cons, qs_statusHeader,
              qs_statusAnalyzing, qs_errorUnexpected, qs_errorUnclassified, hfil1]
                  · constructor
                    · rfl
                    · simp [List.filter_append, List.filter_cons, qs_statusHeader,
              qs_statusAnalyzing, qs_errorUnexpected, qs_errorUnclassified, hfil1]
            · rw [if_neg hic, if_neg hic]
              by_cases hiq : getFlag kvs "is_question" = true
              · rw [if_pos hiq, if_pos hiq]
                have hrel := handle_q_quiet (JVal.jobj kvs)
                cases hh : handle_question_request_m (JVal.jobj kvs) false with
                | error e =>
                    rw [hh] at hrel
                    simp only [Except.map] at hrel
                    rw [hrel]
                    dsimp only
                    constructor
                    · rfl
                    · simp [List.filter_append, List.filter_cons, qs_statusHeader,
              qs_statusAnalyzing, qs_errorUnexpected, qs_errorUnclassified, hfil1]
                | ok pr =>
                    obtain ⟨b, evs⟩ := pr
                    rw [hh] at hrel
                    simp only [Except.map] at hrel
                    rw [hrel]
                    cases b
                    · constructor
                      · rfl
                      · simp [List.filter_append, List.filter_cons, qs_statusHeader,
              qs_statusAnalyzing, qs_errorUnexpected, qs_errorUnclassified, hfil1]
                    · constructor
                      · rfl
                      · simp [List.filter_append, List.filter_cons, qs_statusHeader,
              qs_statusAnalyzing, qs_errorUnexpected, qs_errorUnclassified, hfil1]
              · rw [if_neg hiq, if_neg hiq]
                constructor
                · rfl
                · simp [List.filter_append, List.filter_cons, qs_statusHeader,
              qs_statusAnalyzing, qs_errorUnexpected, qs_errorUnclassified, hfil1]
        | jnull => exact absurd htr (by simp [pyTruthy])
        | jbool bb =>
            constructor
            · rfl
            · simp [List.filter_append, List.filter_cons, qs_statusHeader,
              qs_statusAnalyzing, qs_errorUnexpected, qs_errorUnclassified, hfil1]
        | jnum m e' =>
            constructor
            · rfl
            · simp [List.filter_append, List.filter_cons, qs_statusHeader,
              qs_statusAnalyzing, qs_errorUnexpected, qs_errorUnclassified, hfil1]
        | jnan =>
            constructor
            · rfl
            · simp [List.filter_append, List.filter_cons, qs_statusHeader,
              qs_statusAnalyzing, qs_errorUnexpected, qs_errorUnclassified, hfil1]
        | jinf n =>
            constructor
            · rfl
            · simp [List.filter_append, List.filter_cons, qs_statusHeader,
              qs_statusAnalyzing, qs_errorUnexpected, qs_errorUnclassified, hfil1]
        | jstr s =>
            constructor
            · rfl
            · simp [List.filter_append, List.filter_cons, qs_statusHeader,
              qs_statusAnalyzing, qs_errorUnexpected, qs_errorUnclassified, hfil1]
        | jarr xs =>
            constructor
            · rfl
            · simp [List.filter_append, List.filter_cons, qs_statusHeader,
              qs_statusAnalyzing, qs_errorUnexpected, qs_errorUnclassified, hfil1]
      · rw [if_neg htr, if_neg htr]
        constructor
        · rfl
        · simp [List.filter_append, List.filter_cons, qs_statusHeader,
              qs_statusAnalyzing, qs_errorUnexpected, qs_errorUnclassified, hfil1]

/-- Witness for the amended C9. -/
theorem claim_C9_amended_witness :
    (cliMain "list files" (some "\x7b\"is_command_request\": true, \"command\": \"ls\"\x7d")
        none "" true).1 =
      (cliMain "list files" (some "\x7b\"is_command_request\": true, \"command\": \"ls\"\x7d")
        none "" false).1 ∧
    (cliMain "list files" (some "\x7b\"is_command_request\": true, \"command\": \"ls\"\x7d")
        none "" true).2 =
      ((cliMain "list files" (some "\x7b\"is_command_request\": true, \"command\": \"ls\"\x7d")
        none "" false).2).filter (fun e => !quietSuppressed e) :=
  claim_C9_amended "list files"
    (some "\x7b\"is_command_request\": true, \"command\": \"ls\"\x7d") none ""

end CmdGen
